import Mathlib

/-!
Shallow embedding of the glusterfs-fuse adapter (src/src/inode.rs and
src/src/main.rs): the inode/path resolution table (`InodeStore`) and the
FUSE protocol handlers of `GlusterFilesystem` that the verified claims
concern.  Rust `u64`/`u32`/`u16` fields are modelled as `Nat` (no claim
depends on wrap-around), `time::Timespec` as a pair of integers, paths as
their component sequences (`List String`, mirroring `path_to_sequence`:
the root path `/` is the one-component sequence `["/"]` and `PathBuf::join`
with a single file name appends one component), `HashMap` and
`SequenceTrie` as association lists keyed by the inode number and by the
component sequence respectively (only exact-key get/insert/remove are
exercised by the code under study), and Rust panics as the `Fault` error
of an `Except`.  Backend (libgfapi) interaction is modelled by a `Backend`
record of oracles; every handler also returns the list of backend calls it
issued, so that claims about "no backend round trip" are statable.
-/

/-- Model of `time::Timespec`: seconds and nanoseconds. -/
structure Timespec where
  sec : Int
  nsec : Int
deriving DecidableEq, Repr

/-- Model of `fuse::FileType`. -/
inductive FileType where
  | RegularFile
  | Directory
  | NamedPipe
  | CharDevice
  | BlockDevice
  | Symlink
deriving DecidableEq, Repr

/-- Model of `fuse::FileAttr` as used by the adapter. -/
structure FileAttr where
  ino : Nat
  size : Nat
  blocks : Nat
  atime : Timespec
  mtime : Timespec
  ctime : Timespec
  crtime : Timespec
  kind : FileType
  perm : Nat
  nlink : Nat
  uid : Nat
  gid : Nat
  rdev : Nat
  flags : Nat
deriving DecidableEq, Repr

/-- Model of `inode::Inode`: a cached record pairing a path (component sequence,
as produced by `path_to_sequence`) with its last observed attributes. -/
structure Inode where
  path : List String
  attr : FileAttr
deriving DecidableEq, Repr

/-- Association-list lookup (models `HashMap::get` / `SequenceTrie::get`
at an exact key). -/
def alFind {α β : Type} [DecidableEq α] : List (α × β) → α → Option β
  | [], _ => none
  | (k', v') :: rest, k => if k' = k then some v' else alFind rest k

/-- Association-list insert-or-replace (models `HashMap::insert` and the
overwriting trie update performed by `InodeStore::insert`). -/
def alInsert {α β : Type} [DecidableEq α] : List (α × β) → α → β → List (α × β)
  | [], k, v => [(k, v)]
  | (k', v') :: rest, k, v =>
    if k' = k then (k, v) :: rest else (k', v') :: alInsert rest k v

/-- Association-list removal of a key (models `HashMap::remove` and
`SequenceTrie::remove` of the value stored at an exact key). -/
def alErase {α β : Type} [DecidableEq α] : List (α × β) → α → List (α × β)
  | [], _ => []
  | (k', v') :: rest, k =>
    if k' = k then alErase rest k else (k', v') :: alErase rest k

/-- Rust panics (process aborts).  `corruptedState` is the
`panic!("Corrupted inode store: reinserted conflicting ino …")` in
`InodeStore::insert`; `panicOther` covers `unwrap`/index panics. -/
inductive Fault where
  | corruptedState (ino : Nat) (path oldPath : List String)
  | panicOther (msg : String)
deriving DecidableEq, Repr

/-- Model of `inode::InodeStore`: the `ino -> record` map and the path-keyed trie
(`trie` holds the `path-sequence -> ino` bindings), plus `last_ino`. -/
structure InodeStore where
  inode_map : List (Nat × Inode)
  ino_trie : List (List String × Nat)
  last_ino : Nat
deriving DecidableEq, Repr

namespace InodeStore

/-- Model of `InodeStore::insert`.  If the inode number is already present with a
different path the Rust code panics ("Corrupted inode store"); with the
same path it replaces the record in place.  In all non-panicking cases the
trie binding at the path sequence of the record is inserted or overwritten
(the source `insert`-then-`get_mut_node` dance nets out to an
insert-or-overwrite of the value at that key). -/
def insert (s : InodeStore) (inode : Inode) : Except Fault InodeStore :=
  match alFind s.inode_map inode.attr.ino with
  | some old =>
    if old.path ≠ inode.path then
      .error (.corruptedState inode.attr.ino inode.path old.path)
    else
      .ok { s with inode_map := alInsert s.inode_map inode.attr.ino inode,
                   ino_trie := alInsert s.ino_trie inode.path inode.attr.ino }
  | none =>
    .ok { s with inode_map := alInsert s.inode_map inode.attr.ino inode,
                 ino_trie := alInsert s.ino_trie inode.path inode.attr.ino }

/-- Model of `InodeStore::get`. -/
def get (s : InodeStore) (ino : Nat) : Option Inode :=
  alFind s.inode_map ino

/-- Model of `InodeStore::get_by_path`: resolve the component sequence of a path through
the trie, then through the inode map. -/
def get_by_path (s : InodeStore) (path : List String) : Option Inode :=
  (alFind s.ino_trie path).bind (fun ino => s.get ino)

/-- Model of `InodeStore::child`: append `name` to the parent component sequence
and resolve through the trie. -/
def child (s : InodeStore) (ino : Nat) (name : String) : Option Inode :=
  (s.get ino).bind (fun inode =>
    (alFind s.ino_trie (inode.path ++ [name])).bind (fun ino2 => s.get ino2))

/-- Model of `InodeStore::remove`: `self.inode_map[&ino]` panics when the inode is
absent (modelled as `none`); otherwise both the map entry and the trie
binding at the recorded path are deleted. -/
def remove (s : InodeStore) (ino : Nat) : Option InodeStore :=
  match alFind s.inode_map ino with
  | none => none
  | some inode =>
    some { s with inode_map := alErase s.inode_map ino,
                  ino_trie := alErase s.ino_trie inode.path }

/-- Model of `InodeStore::insert_metadata`: insert and return the stored record
(the source trailing `self.get(ino).unwrap()`). -/
def insertMetadata (s : InodeStore) (path : List String) (attr : FileAttr) :
    Except Fault (Inode × InodeStore) :=
  match s.insert ⟨path, attr⟩ with
  | .error e => .error e
  | .ok s' =>
    match s'.get attr.ino with
    | some inode => .ok (inode, s')
    | none => .error (.panicOther "insert_metadata: unwrap on None")

/-- Model of `InodeStore::new`: fresh store holding only the synthetic root record
for inode 1 at path `/` (directory kind, zero size); `now` stands for
`time::now_utc().to_timespec()`.  No backend is consulted (the definition
takes none). -/
def new (perm uid gid : Nat) (now : Timespec) : Except Fault InodeStore :=
  let base : InodeStore := { inode_map := [], ino_trie := [], last_ino := 1 }
  let fs_root : FileAttr :=
    { ino := 1, size := 0, blocks := 0, atime := now, mtime := now,
      ctime := now, crtime := now, kind := .Directory, perm := perm,
      nlink := 0, uid := uid, gid := gid, rdev := 0, flags := 0 }
  base.insert ⟨["/"], fs_root⟩

end InodeStore

/-! ## Protocol adapter (src/src/main.rs) -/

/-- libc errno values used by the handlers. -/
def ENOENT : Nat := 2
def ERANGE : Nat := 34
def ENOSYS : Nat := 38
def ENODATA : Nat := 61

/-- Constants `S_IFMT` and the file-kind bit patterns from libc. -/
def S_IFMT : Nat := 0o170000
def S_IFREG : Nat := 0o100000
def S_IFDIR : Nat := 0o040000
def S_IFCHR : Nat := 0o020000
def S_IFBLK : Nat := 0o060000
def S_IFIFO : Nat := 0o010000
def S_IFLNK : Nat := 0o120000

/-- Constant `d_type` byte values from libc. -/
def DT_FIFO : Nat := 1
def DT_CHR : Nat := 2
def DT_DIR : Nat := 4
def DT_BLK : Nat := 6
def DT_REG : Nat := 8
def DT_LNK : Nat := 10

/-- Model of `filetype_from_mode`: keep only the `S_IFMT` bits of `st_mode` and map
them to a `FileType`; unknown patterns yield `none`. -/
def filetype_from_mode (mode_t : Nat) : Option FileType :=
  let bits := Nat.land mode_t S_IFMT
  if bits = S_IFREG then some .RegularFile
  else if bits = S_IFDIR then some .Directory
  else if bits = S_IFIFO then some .NamedPipe
  else if bits = S_IFCHR then some .CharDevice
  else if bits = S_IFBLK then some .BlockDevice
  else if bits = S_IFLNK then some .Symlink
  else none

/-- Model of `filetype_from_uchar`: map the `d_type` byte of a directory entry to a
`FileType`. -/
def filetype_from_uchar (f_type : Nat) : Option FileType :=
  if f_type = DT_REG then some .RegularFile
  else if f_type = DT_DIR then some .Directory
  else if f_type = DT_FIFO then some .NamedPipe
  else if f_type = DT_CHR then some .CharDevice
  else if f_type = DT_BLK then some .BlockDevice
  else if f_type = DT_LNK then some .Symlink
  else none

/-- The raw `stat(2)`-like record returned by the backend `stat`. -/
structure CStat where
  st_ino : Nat
  st_size : Nat
  st_blocks : Nat
  st_atime : Int
  st_atime_nsec : Int
  st_mtime : Int
  st_mtime_nsec : Int
  st_ctime : Int
  st_ctime_nsec : Int
  st_mode : Nat
  st_nlink : Nat
  st_uid : Nat
  st_gid : Nat
  st_rdev : Nat
deriving DecidableEq, Repr

/-- The remote storage backend (libgfapi), as oracles: each operation the
studied handlers invoke, mapping its arguments to the outcome the remote
side would produce.  Results of `utimens`/`chmod`/`chown` are only logged
by the source, but the calls themselves are observable in the trace. -/
structure Backend where
  stat : List String → Except String CStat
  unlink : List String → Except String Unit
  utimens : List String → Timespec → Timespec → Except String Unit
  chmod : List String → Nat → Except String Unit
  chown : List String → Nat → Nat → Except String Unit
  getxattr : List String → String → Except String String

/-- One backend invocation, recorded in a handler trace. -/
inductive BackendCall where
  | stat (path : List String)
  | unlink (path : List String)
  | utimens (path : List String) (atime mtime : Timespec)
  | chmod (path : List String) (mode : Nat)
  | chown (path : List String) (uid gid : Nat)
  | getxattr (path : List String) (name : String)
deriving DecidableEq, Repr

/-- A reply sent back to the kernel by one of the studied handlers. -/
inductive Reply where
  | entry (ttl : Timespec) (attr : FileAttr)
  | attr (ttl : Timespec) (attr : FileAttr)
  | ok
  | err (errno : Nat)
  | xattrSize (n : Nat)
  | xattrData (d : String)
deriving DecidableEq, Repr

/-- Model of `const TTL: Timespec = Timespec { sec: 1, nsec: 0 };` — the validity
window attached to every attribute/entry reply. -/
def TTL : Timespec := ⟨1, 0⟩

/-- Model of `GlusterFilesystem::stat`: backend `stat` followed by normalization
into a `FileAttr`.  The permission bits are hard-coded `0o755` (the source
carries a TODO to extract them from `st_mode`), `crtime` is hard-coded
`Timespec { sec: 1, nsec: 0 }`, and the kind comes from
`filetype_from_mode` (failure to classify is an error). -/
def gfsStat (b : Backend) (path : List String) : Except String FileAttr :=
  match b.stat path with
  | .error e => .error e
  | .ok st =>
    match filetype_from_mode st.st_mode with
    | none => .error "Unable to determine file type"
    | some device_type =>
      .ok { ino := st.st_ino, size := st.st_size, blocks := st.st_blocks,
            atime := ⟨st.st_atime, st.st_atime_nsec⟩,
            mtime := ⟨st.st_mtime, st.st_mtime_nsec⟩,
            ctime := ⟨st.st_ctime, st.st_ctime_nsec⟩,
            crtime := ⟨1, 0⟩, kind := device_type, perm := 0o755,
            nlink := st.st_nlink, uid := st.st_uid, gid := st.st_gid,
            rdev := st.st_rdev, flags := 0 }

/-- Model of `GlusterFilesystem::getattr`: a pure table lookup — present inodes are
answered from cache with the `TTL` validity window, absent ones with
`ENOENT`; the handler body contains no backend call, hence the empty
trace. -/
def getattr (_b : Backend) (s : InodeStore) (ino : Nat) :
    Reply × List BackendCall :=
  match s.get ino with
  | some inode => (.attr TTL inode.attr, [])
  | none => (.err ENOENT, [])

/-- Model of `GlusterFilesystem::lookup`: the cache-consulting branch is commented
out in the source; the live code indexes the parent (panics when absent),
joins the name onto the parent path, always issues a backend `stat`, and
on success inserts the record (which can itself abort on an ino conflict)
before replying with it; on `stat` failure it replies `ENOENT`. -/
def lookup (b : Backend) (s : InodeStore) (parent : Nat) (name : String) :
    Except Fault (Reply × InodeStore × List BackendCall) :=
  match s.get parent with
  | none => .error (.panicOther "index: no entry found for key")
  | some parent_inode =>
    let child_path := parent_inode.path ++ [name]
    match gfsStat b child_path with
    | .ok file_attr =>
      match s.insertMetadata child_path file_attr with
      | .ok (inode, s') => .ok (.entry TTL inode.attr, s', [.stat child_path])
      | .error e => .error e
    | .error _ => .ok (.err ENOENT, s, [.stat child_path])

/-- Model of `GlusterFilesystem::unlink`: resolve the target from the cache via
`InodeStore::child` (`ENOENT` on a cache miss), call the backend `unlink`,
and on success remove the target inode from the table; on backend
failure reply `ENOENT` leaving the table untouched. -/
def unlink (b : Backend) (s : InodeStore) (parent : Nat) (name : String) :
    Except Fault (Reply × InodeStore × List BackendCall) :=
  match s.child parent name with
  | none => .ok (.err ENOENT, s, [])
  | some target =>
    match b.unlink target.path with
    | .ok _ =>
      match s.remove target.attr.ino with
      | some s' => .ok (.ok, s', [.unlink target.path])
      | none => .error (.panicOther "remove: no entry found for key")
    | .error _ => .ok (.err ENOENT, s, [.unlink target.path])

/-- Model of `GlusterFilesystem::setattr`: resolve the path from the cache
(`ENOENT` when unknown); build the `times` array (zeroed slots for
unrequested timestamps) and call `utimens` unconditionally, its result
only logged; call `chmod` only when a mode was requested and `chown` only
when both uid and gid were, each result only logged; finally re-`stat` the
path, refresh the cached record and reply with it, or reply `ENOENT` when
the final stat fails. -/
def setattr (b : Backend) (s : InodeStore) (ino : Nat)
    (mode uid gid : Option Nat) (atime mtime : Option Timespec) :
    Except Fault (Reply × InodeStore × List BackendCall) :=
  match s.get ino with
  | none => .ok (.err ENOENT, s, [])
  | some inode =>
    let path := inode.path
    let t0 := match atime with | some a => a | none => ⟨0, 0⟩
    let t1 := match mtime with | some m => m | none => ⟨0, 0⟩
    let utimensCalls : List BackendCall := [.utimens path t0 t1]
    let chmodCalls : List BackendCall :=
      match mode with | some m => [.chmod path m] | none => []
    let chownCalls : List BackendCall :=
      match uid, gid with
      | some u, some g => [.chown path u g]
      | _, _ => []
    let calls := utimensCalls ++ chmodCalls ++ chownCalls ++ [.stat path]
    match gfsStat b path with
    | .ok file_attr =>
      match s.insertMetadata path file_attr with
      | .ok (inode', s') => .ok (.attr TTL inode'.attr, s', calls)
      | .error e => .error e
    | .error _ => .ok (.err ENOENT, s, calls)

/-- Model of `GlusterFilesystem::getxattr`: resolve the path from the cache
(`ENOENT` when unknown), fetch the attribute value from the backend
(`ENODATA` on failure), re-`stat` and refresh the record (`ENODATA` when
that fails), and then — in this order — reply `ERANGE` whenever the value
is longer than the requested size, reply only the length when the
requested size is zero, and otherwise reply the bytes. -/
def getxattr (b : Backend) (s : InodeStore) (ino : Nat) (name : String)
    (size : Nat) : Except Fault (Reply × InodeStore × List BackendCall) :=
  match s.get ino with
  | none => .ok (.err ENOENT, s, [])
  | some inode =>
    let path := inode.path
    match b.getxattr path name with
    | .ok data =>
      match gfsStat b path with
      | .ok file_attr =>
        match s.insertMetadata path file_attr with
        | .ok (_, s') =>
          if data.length > size then
            .ok (.err ERANGE, s', [.getxattr path name, .stat path])
          else if size = 0 then
            .ok (.xattrSize data.length, s', [.getxattr path name, .stat path])
          else
            .ok (.xattrData data, s', [.getxattr path name, .stat path])
        | .error e => .error e
      | .error _ => .ok (.err ENODATA, s, [.getxattr path name, .stat path])
    | .error _ => .ok (.err ENODATA, s, [.getxattr path name])

/-- A raw directory entry yielded by the backend directory cursor
(`gfapi_sys::gluster::DirEntry`): inode number, `d_type` byte, name. -/
structure DirEntry where
  inode : Nat
  file_type : Nat
  path : String
deriving DecidableEq, Repr

/-- Outcome of a `readdir` call: `ok` (`reply.ok()`) or an errno
(`reply.error(...)`). -/
inductive ReaddirStatus where
  | ok
  | err (errno : Nat)
deriving DecidableEq, Repr

/-- Result of one `readdir` call: the reply status, the entries placed in
the reply buffer (`(ino, offset, kind, name)` as passed to `reply.add`),
and the state of the backend directory cursor afterwards (the suffix of
entries the stateful `GlusterDirectory` handle has not yet yielded — the
handle, not the ignored offset argument, is what carries position across
successive calls). -/
structure ReaddirResult where
  status : ReaddirStatus
  emitted : List (Nat × Nat × FileType × String)
  cursor : List DirEntry
deriving DecidableEq, Repr

/-- The `for dir_entry in d` loop of `GlusterFilesystem::readdir`.  `cap`
abstracts the reply-buffer capacity of the caller as the number of entries that
fit: `reply.add` accepts the entry and returns `false` while fewer than
`cap` entries are buffered, and returns `true` (buffer full, entry NOT
added) once `cap` entries are buffered — whereupon the code replies `ok`
with the entry already consumed from the cursor.  An unclassifiable
`d_type` makes the code reply `ENOSYS` (discarding the buffer).  The local
offset counter starts at 0 on every call. -/
def readdirGo (cap : Nat) :
    List DirEntry → Nat → List (Nat × Nat × FileType × String) →
    ReaddirResult
  | [], _, acc => ⟨.ok, acc, []⟩
  | e :: rest, off, acc =>
    match filetype_from_uchar e.file_type with
    | none => ⟨.err ENOSYS, [], rest⟩
    | some d_type =>
      if acc.length < cap then
        readdirGo cap rest (off + 1) (acc ++ [(e.inode, off, d_type, e.path)])
      else
        ⟨.ok, acc, rest⟩

/-- Model of `GlusterFilesystem::readdir`: the `_offset` request argument is read
by nothing in the body (only logged); enumeration always starts from the
current position of the backend directory cursor with a fresh local
offset counter of 0. -/
def readdir (cap : Nat) (_offset : Nat) (cursor : List DirEntry) :
    ReaddirResult :=
  readdirGo cap cursor 0 []

/-- The table mutation in `GlusterFilesystem::write`:
`self.inodes.get_mut(ino).unwrap().attr.size += bytes_written` (panics,
i.e. `none`, when the inode is unknown). -/
def InodeStore.updSize (s : InodeStore) (ino bytes : Nat) :
    Option InodeStore :=
  match alFind s.inode_map ino with
  | none => none
  | some inode =>
    some { s with
           inode_map := alInsert s.inode_map ino
             { inode with attr := { inode.attr with
                                    size := inode.attr.size + bytes } } }

/-- Table states reachable through the adapter use of the store.  The
constructors cover every call site in src/src/main.rs that mutates
`self.inodes`:
* `init` — `InodeStore::new` in `GlusterFilesystem::new`;
* `insertStep` — every `insert_metadata` call (lookup, setattr, mknod,
  mkdir, symlink, link, create, getxattr); each inserts at a nonempty
  component sequence: either the path of an existing record or the path of a
  parent record joined with one more name, so only `r.path ≠ []` is
  assumed;
* `removeStep` — the single `remove` call site, in `unlink`, whose inode
  is always the one of a record resolved by `InodeStore::child`;
* `writeStep` — the in-place size bump in `write`. -/
inductive Reachable : InodeStore → Prop
  | init (perm uid gid : Nat) (now : Timespec) (s : InodeStore) :
      InodeStore.new perm uid gid now = .ok s → Reachable s
  | insertStep (s s' : InodeStore) (r : Inode) : Reachable s →
      r.path ≠ [] → s.insert r = .ok s' → Reachable s'
  | removeStep (s s' : InodeStore) (parent : Nat) (name : String)
      (t : Inode) : Reachable s → s.child parent name = some t →
      s.remove t.attr.ino = some s' → Reachable s'
  | writeStep (s s' : InodeStore) (ino bytes : Nat) : Reachable s →
      s.updSize ino bytes = some s' → Reachable s'

/-! ## Association-list lemmas -/

theorem alFind_alInsert_self {α β : Type} [DecidableEq α]
    (l : List (α × β)) (k : α) (v : β) :
    alFind (alInsert l k v) k = some v := by
  induction l with
  | nil => simp [alInsert, alFind]
  | cons hd tl ih =>
    obtain ⟨k', v'⟩ := hd
    by_cases h : k' = k
    · simp [alInsert, alFind, h]
    · simp [alInsert, alFind, h, ih]

theorem alFind_alInsert_ne {α β : Type} [DecidableEq α]
    (l : List (α × β)) (k : α) (v : β) (k2 : α) (h : k2 ≠ k) :
    alFind (alInsert l k v) k2 = alFind l k2 := by
  induction l with
  | nil =>
    simp only [alInsert, alFind]
    rw [if_neg (fun hh => h hh.symm)]
  | cons hd tl ih =>
    obtain ⟨k', v'⟩ := hd
    by_cases hk : k' = k
    · subst hk
      simp only [alInsert, if_pos rfl, alFind]
      rw [if_neg (fun hh => h hh.symm), if_neg (fun hh => h hh.symm)]
    · simp only [alInsert, if_neg hk, alFind]
      by_cases hk2 : k' = k2
      · rw [if_pos hk2, if_pos hk2]
      · rw [if_neg hk2, if_neg hk2]
        exact ih

theorem alFind_alErase_self {α β : Type} [DecidableEq α]
    (l : List (α × β)) (k : α) :
    alFind (alErase l k) k = none := by
  induction l with
  | nil => simp [alErase, alFind]
  | cons hd tl ih =>
    obtain ⟨k', v'⟩ := hd
    by_cases h : k' = k
    · simp only [alErase, if_pos h]
      exact ih
    · simp only [alErase, if_neg h, alFind]
      exact ih

theorem alFind_alErase_ne {α β : Type} [DecidableEq α]
    (l : List (α × β)) (k : α) (k2 : α) (h : k2 ≠ k) :
    alFind (alErase l k) k2 = alFind l k2 := by
  induction l with
  | nil => simp [alErase, alFind]
  | cons hd tl ih =>
    obtain ⟨k', v'⟩ := hd
    by_cases hk : k' = k
    · subst hk
      have he : alErase ((k', v') :: tl) k' = alErase tl k' := by
        simp [alErase]
      rw [he, ih]
      simp only [alFind]
      rw [if_neg (fun hh => h hh.symm)]
    · simp only [alErase, if_neg hk, alFind]
      by_cases hk2 : k' = k2
      · rw [if_pos hk2, if_pos hk2]
      · rw [if_neg hk2, if_neg hk2]
        exact ih

/-- Case analysis for a lookup in an updated association list. -/
theorem alFind_alInsert_cases {α β : Type} [DecidableEq α]
    (l : List (α × β)) (k : α) (v : β) (k2 : α) (v2 : β)
    (h : alFind (alInsert l k v) k2 = some v2) :
    (k2 = k ∧ v2 = v) ∨ (k2 ≠ k ∧ alFind l k2 = some v2) := by
  by_cases hk : k2 = k
  · subst hk
    rw [alFind_alInsert_self] at h
    exact Or.inl ⟨rfl, (Option.some_inj.mp h).symm⟩
  · rw [alFind_alInsert_ne l k v k2 hk] at h
    exact Or.inr ⟨hk, h⟩

/-- A lookup that survives an erasure was present before at a different
key. -/
theorem alFind_alErase_cases {α β : Type} [DecidableEq α]
    (l : List (α × β)) (k : α) (k2 : α) (v2 : β)
    (h : alFind (alErase l k) k2 = some v2) :
    k2 ≠ k ∧ alFind l k2 = some v2 := by
  by_cases hk : k2 = k
  · subst hk
    rw [alFind_alErase_self] at h
    exact absurd h (by simp)
  · rw [alFind_alErase_ne l k k2 hk] at h
    exact ⟨hk, h⟩

/-! ## InodeStore helper lemmas -/

namespace InodeStore

/-- A successful `insert` yields the store with both indexes updated at
the key and path of the record, and implies that any previously stored record
under that inode number had the same path. -/
theorem insert_ok_eq (s s' : InodeStore) (r : Inode)
    (h : s.insert r = .ok s') :
    s'.inode_map = alInsert s.inode_map r.attr.ino r ∧
    s'.ino_trie = alInsert s.ino_trie r.path r.attr.ino ∧
    s'.last_ino = s.last_ino ∧
    (∀ old, alFind s.inode_map r.attr.ino = some old → old.path = r.path) := by
  unfold insert at h
  split at h
  next old hf =>
    split at h
    next => exact absurd h (by simp)
    next hp =>
      simp only [Except.ok.injEq] at h
      subst h
      refine ⟨rfl, rfl, rfl, fun old2 hold2 => ?_⟩
      rw [hf] at hold2
      cases hold2
      exact not_not.mp hp
  next hf =>
    simp only [Except.ok.injEq] at h
    subst h
    refine ⟨rfl, rfl, rfl, fun old hold => ?_⟩
    rw [hf] at hold
    exact absurd hold (by simp)

/-- Lemma: `insert` refuses — with the `corruptedState` abort — exactly the
reinsertion of an existing inode number at a different path. -/
theorem insert_conflict_eq (s : InodeStore) (r old : Inode)
    (hf : alFind s.inode_map r.attr.ino = some old)
    (hp : old.path ≠ r.path) :
    s.insert r = .error (.corruptedState r.attr.ino r.path old.path) := by
  simp only [insert, hf]
  rw [if_pos hp]

end InodeStore

namespace InodeStore

theorem get_eq (s : InodeStore) (ino : Nat) :
    s.get ino = alFind s.inode_map ino := rfl

/-- Unpack a successful `child` resolution into its three lookups. -/
theorem child_eq_some (s : InodeStore) (parent : Nat) (name : String)
    (t : Inode) (h : s.child parent name = some t) :
    ∃ p i2, s.get parent = some p ∧
      alFind s.ino_trie (p.path ++ [name]) = some i2 ∧ s.get i2 = some t := by
  unfold child at h
  cases hgp : s.get parent with
  | none => rw [hgp] at h; exact absurd h (by simp)
  | some p =>
    rw [hgp] at h
    simp only [Option.bind] at h
    cases hti : alFind s.ino_trie (p.path ++ [name]) with
    | none => rw [hti] at h; exact absurd h (by simp)
    | some i2 =>
      rw [hti] at h
      simp only [Option.bind] at h
      exact ⟨p, i2, rfl, hti, h⟩

/-- Unpack a successful `remove`. -/
theorem remove_eq_some (s s' : InodeStore) (ino : Nat)
    (h : s.remove ino = some s') :
    ∃ inode, alFind s.inode_map ino = some inode ∧
      s'.inode_map = alErase s.inode_map ino ∧
      s'.ino_trie = alErase s.ino_trie inode.path ∧
      s'.last_ino = s.last_ino := by
  unfold remove at h
  split at h
  next => exact absurd h (by simp)
  next inode hf =>
    simp only [Option.some.injEq] at h
    subst h
    exact ⟨inode, hf, rfl, rfl, rfl⟩

/-- Unpack a successful `updSize`. -/
theorem updSize_eq_some (s s' : InodeStore) (ino bytes : Nat)
    (h : s.updSize ino bytes = some s') :
    ∃ inode, alFind s.inode_map ino = some inode ∧
      s'.inode_map = alInsert s.inode_map ino
        { inode with attr := { inode.attr with
                               size := inode.attr.size + bytes } } ∧
      s'.ino_trie = s.ino_trie ∧
      s'.last_ino = s.last_ino := by
  unfold updSize at h
  split at h
  next => exact absurd h (by simp)
  next inode hf =>
    simp only [Option.some.injEq] at h
    subst h
    exact ⟨inode, hf, rfl, rfl, rfl⟩

end InodeStore

/-- Invariant carried along `Reachable`: inode 1 is bound to the root
path, every stored record is keyed by its own inode number and has a
nonempty path, and the trie maps only the root sequence to inode 1. -/
def RootInv (s : InodeStore) : Prop :=
  (∃ r, s.get 1 = some r ∧ r.path = ["/"]) ∧
  (∀ k r, alFind s.inode_map k = some r → r.path ≠ [] ∧ r.attr.ino = k) ∧
  (∀ seq, alFind s.ino_trie seq = some 1 → seq = ["/"])

/-- Lemma: `RootInv` holds in every adapter-reachable table state. -/
theorem rootInv_of_reachable (s : InodeStore) (h : Reachable s) :
    RootInv s := by
  induction h with
  | init perm uid gid now s0 hnew =>
    simp only [InodeStore.new, InodeStore.insert, alFind, alInsert,
               Except.ok.injEq] at hnew
    subst hnew
    refine ⟨⟨_, rfl, rfl⟩, ?_, ?_⟩
    · intro k r hkr
      simp only [alFind] at hkr
      split at hkr
      next h1 =>
        cases hkr
        exact ⟨by simp, h1⟩
      next => exact absurd hkr (by simp [alFind])
    · intro seq hseq
      simp only [alFind] at hseq
      split at hseq
      next h1 => exact h1.symm
      next => exact absurd hseq (by simp [alFind])
  | insertStep s0 s' r _ hpath hins ih =>
    obtain ⟨hmap, htrie, _, hold⟩ := InodeStore.insert_ok_eq s0 s' r hins
    have hr1 : r.attr.ino = 1 → r.path = ["/"] := by
      intro h1
      obtain ⟨r0, hget0, hp0⟩ := ih.1
      rw [InodeStore.get_eq] at hget0
      have hp := hold r0 (by rw [h1]; exact hget0)
      rw [← hp]
      exact hp0
    refine ⟨?_, ?_, ?_⟩
    · by_cases hino : r.attr.ino = 1
      · refine ⟨r, ?_, hr1 hino⟩
        rw [InodeStore.get_eq, hmap, ← hino]
        exact alFind_alInsert_self _ _ _
      · obtain ⟨r0, hget0, hp0⟩ := ih.1
        refine ⟨r0, ?_, hp0⟩
        rw [InodeStore.get_eq, hmap,
            alFind_alInsert_ne _ _ _ 1 (fun hh => hino hh.symm)]
        exact hget0
    · intro k rr hkr
      rw [hmap] at hkr
      rcases alFind_alInsert_cases _ _ _ _ _ hkr with ⟨hk, hv⟩ | ⟨_, hfind⟩
      · subst hk; subst hv
        exact ⟨hpath, rfl⟩
      · exact ih.2.1 k rr hfind
    · intro seq hseq
      rw [htrie] at hseq
      rcases alFind_alInsert_cases _ _ _ _ _ hseq with ⟨hk, hv⟩ | ⟨_, hfind⟩
      · rw [hk, hr1 hv.symm]
      · exact ih.2.2 seq hfind
  | removeStep s0 s' parent name t _ hchild hrem ih =>
    obtain ⟨p, i2, hgp, hti, hgt⟩ :=
      InodeStore.child_eq_some s0 parent name t hchild
    rw [InodeStore.get_eq] at hgp hgt
    have hpne : p.path ≠ [] := (ih.2.1 parent p hgp).1
    have htino : t.attr.ino = i2 := (ih.2.1 i2 t hgt).2
    have hi2ne1 : i2 ≠ 1 := by
      intro h1
      have heq := ih.2.2 (p.path ++ [name]) (by rw [← h1]; exact hti)
      have hlen := congrArg List.length heq
      simp only [List.length_append, List.length_cons, List.length_nil]
        at hlen
      exact hpne (List.length_eq_zero.mp (by omega))
    obtain ⟨inode, _, hmap, htrie, _⟩ :=
      InodeStore.remove_eq_some s0 s' t.attr.ino hrem
    refine ⟨?_, ?_, ?_⟩
    · obtain ⟨r0, hget0, hp0⟩ := ih.1
      refine ⟨r0, ?_, hp0⟩
      rw [InodeStore.get_eq, hmap,
          alFind_alErase_ne _ _ 1 (by rw [htino]; exact fun hh => hi2ne1 hh.symm)]
      rw [InodeStore.get_eq] at hget0
      exact hget0
    · intro k rr hkr
      rw [hmap] at hkr
      exact ih.2.1 k rr (alFind_alErase_cases _ _ _ _ hkr).2
    · intro seq hseq
      rw [htrie] at hseq
      exact ih.2.2 seq (alFind_alErase_cases _ _ _ _ hseq).2
  | writeStep s0 s' ino bytes _ hupd ih =>
    obtain ⟨inode, hf, hmap, htrie, _⟩ :=
      InodeStore.updSize_eq_some s0 s' ino bytes hupd
    have hrec := ih.2.1 ino inode hf
    refine ⟨?_, ?_, ?_⟩
    · by_cases hino : ino = 1
      · subst hino
        obtain ⟨r0, hget0, hp0⟩ := ih.1
        rw [InodeStore.get_eq] at hget0
        have hir : inode = r0 := by
          rw [hf] at hget0
          cases hget0
          rfl
        refine ⟨{ inode with attr := { inode.attr with
                    size := inode.attr.size + bytes } }, ?_, ?_⟩
        · rw [InodeStore.get_eq, hmap]
          exact alFind_alInsert_self _ _ _
        · show inode.path = ["/"]
          rw [hir]
          exact hp0
      · obtain ⟨r0, hget0, hp0⟩ := ih.1
        refine ⟨r0, ?_, hp0⟩
        rw [InodeStore.get_eq, hmap,
            alFind_alInsert_ne _ _ _ 1 (fun hh => hino hh.symm)]
        rw [InodeStore.get_eq] at hget0
        exact hget0
    · intro k rr hkr
      rw [hmap] at hkr
      rcases alFind_alInsert_cases _ _ _ _ _ hkr with ⟨hk, hv⟩ | ⟨_, hfind⟩
      · subst hk; subst hv
        exact ⟨hrec.1, hrec.2⟩
      · exact ih.2.1 k rr hfind
    · intro seq hseq
      rw [htrie] at hseq
      exact ih.2.2 seq hseq

/-- Decidable equality for `Except`, so handler outcomes can be checked
by `decide` on concrete inputs. -/
def exceptDecEq {e a : Type} [DecidableEq e] [DecidableEq a] :
    (x y : Except e a) → Decidable (x = y)
  | .error x, .error y =>
    if h : x = y then .isTrue (congrArg Except.error h)
    else .isFalse (fun hh => h (Except.error.inj hh))
  | .ok x, .ok y =>
    if h : x = y then .isTrue (congrArg Except.ok h)
    else .isFalse (fun hh => h (Except.ok.inj hh))
  | .error _, .ok _ => .isFalse (fun hh => Except.noConfusion hh)
  | .ok _, .error _ => .isFalse (fun hh => Except.noConfusion hh)

instance {e a : Type} [DecidableEq e] [DecidableEq a] :
    DecidableEq (Except e a) :=
  exceptDecEq

/-! ## Concrete fixtures used by witnesses and counterexamples -/

/-- The synthetic root attributes produced by `InodeStore::new 0o550 0 0`
at time `(5, 0)`. -/
def rootAttrEx : FileAttr :=
  { ino := 1, size := 0, blocks := 0, atime := ⟨5, 0⟩, mtime := ⟨5, 0⟩,
    ctime := ⟨5, 0⟩, crtime := ⟨5, 0⟩, kind := .Directory, perm := 0o550,
    nlink := 0, uid := 0, gid := 0, rdev := 0, flags := 0 }

def rootInodeEx : Inode := ⟨["/"], rootAttrEx⟩

/-- Attributes of `/readme.txt` as the adapter normalizes them from
`cstat42`. -/
def attr42 : FileAttr :=
  { ino := 42, size := 7, blocks := 1, atime := ⟨2, 0⟩, mtime := ⟨3, 0⟩,
    ctime := ⟨4, 0⟩, crtime := ⟨1, 0⟩, kind := .RegularFile, perm := 0o755,
    nlink := 1, uid := 0, gid := 0, rdev := 0, flags := 0 }

def inode42 : Inode := ⟨["/", "readme.txt"], attr42⟩

/-- Fixture: `attr42` with a different size: a second observation of the same
`(ino, path)`. -/
def attr42b : FileAttr := { attr42 with size := 99 }

def inode42b : Inode := ⟨["/", "readme.txt"], attr42b⟩

/-- The store right after `InodeStore::new 0o550 0 0` at time `(5, 0)`. -/
def store0 : InodeStore :=
  { inode_map := [(1, rootInodeEx)], ino_trie := [(["/"], 1)],
    last_ino := 1 }

/-- Fixture: `store0` with `/readme.txt` (inode 42) cached. -/
def store42 : InodeStore :=
  { inode_map := [(1, rootInodeEx), (42, inode42)],
    ino_trie := [(["/"], 1), (["/", "readme.txt"], 42)], last_ino := 1 }

/-- Backend `stat` answer for `/readme.txt`. -/
def cstat42 : CStat :=
  { st_ino := 42, st_size := 7, st_blocks := 1, st_atime := 2,
    st_atime_nsec := 0, st_mtime := 3, st_mtime_nsec := 0, st_ctime := 4,
    st_ctime_nsec := 0, st_mode := 0o100644, st_nlink := 1, st_uid := 0,
    st_gid := 0, st_rdev := 0 }

/-- Backend `stat` answer for `/`. -/
def cstatRoot : CStat :=
  { st_ino := 1, st_size := 0, st_blocks := 0, st_atime := 6,
    st_atime_nsec := 0, st_mtime := 6, st_mtime_nsec := 0, st_ctime := 6,
    st_ctime_nsec := 0, st_mode := 0o040755, st_nlink := 2, st_uid := 0,
    st_gid := 0, st_rdev := 0 }

/-- Root attributes as re-normalized from `cstatRoot`. -/
def rootAttrRestat : FileAttr :=
  { ino := 1, size := 0, blocks := 0, atime := ⟨6, 0⟩, mtime := ⟨6, 0⟩,
    ctime := ⟨6, 0⟩, crtime := ⟨1, 0⟩, kind := .Directory, perm := 0o755,
    nlink := 2, uid := 0, gid := 0, rdev := 0, flags := 0 }

/-- Fixture: `store0` after the root record is refreshed from `cstatRoot`. -/
def store0r : InodeStore :=
  { inode_map := [(1, ⟨["/"], rootAttrRestat⟩)], ino_trie := [(["/"], 1)],
    last_ino := 1 }

/-- A concrete backend: knows `/` and `/readme.txt`, carries the xattr
`user.test = "hello"`, and accepts every mutation. -/
def bEx : Backend :=
  { stat := fun p =>
      if p = ["/", "readme.txt"] then .ok cstat42
      else if p = ["/"] then .ok cstatRoot
      else .error "No such file or directory",
    unlink := fun p =>
      if p = ["/", "readme.txt"] then .ok ()
      else .error "No such file or directory",
    utimens := fun _ _ _ => .ok (),
    chmod := fun _ _ => .ok (),
    chown := fun _ _ _ => .ok (),
    getxattr := fun _ name =>
      if name = "user.test" then .ok "hello" else .error "No data" }

/-- A three-entry directory listing used by the readdir analysis. -/
def dirEntries : List DirEntry :=
  [⟨10, DT_REG, "a"⟩, ⟨11, DT_REG, "b"⟩, ⟨12, DT_REG, "c"⟩]

/-! ## Claim theorems -/

/-- C1: for every table state and record `r`, if the table already holds
an entry under inode number `r.ino` whose stored path differs from
`r.path`, then `insert r` signals the `CorruptedState` fault (the Rust
`panic!` that aborts the process) instead of accepting the divergent
state. -/
theorem insert_conflicting_ino_corrupted_state (s : InodeStore)
    (r old : Inode) (hf : s.get r.attr.ino = some old)
    (hp : old.path ≠ r.path) :
    s.insert r = .error (.corruptedState r.attr.ino r.path old.path) :=
  InodeStore.insert_conflict_eq s r old hf hp

theorem insert_conflicting_ino_corrupted_state_witness :
    store42.get 42 = some inode42 ∧
    inode42.path ≠ ["/", "other.txt"] ∧
    store42.insert ⟨["/", "other.txt"], attr42⟩ =
      .error (.corruptedState 42 ["/", "other.txt"] ["/", "readme.txt"]) :=
  ⟨by decide, by decide,
   insert_conflicting_ino_corrupted_state store42 ⟨["/", "other.txt"], attr42⟩
     inode42 (by decide) (by decide)⟩

/-- C2: inserting two records with the same inode number and the same
path in sequence raises no `CorruptedState` fault — the second insert is
a refresh — and a subsequent `get` of that inode returns the second
record: same path, second attribute payload. -/
theorem insert_refresh_second_attr_wins (s s1 : InodeStore) (r1 r2 : Inode)
    (hino : r1.attr.ino = r2.attr.ino) (hpath : r1.path = r2.path)
    (h1 : s.insert r1 = .ok s1) :
    ∃ s2, s1.insert r2 = .ok s2 ∧ s2.get r2.attr.ino = some r2 := by
  obtain ⟨hmap, _, _, _⟩ := InodeStore.insert_ok_eq s s1 r1 h1
  have hf1 : alFind s1.inode_map r2.attr.ino = some r1 := by
    rw [hmap, ← hino]
    exact alFind_alInsert_self _ _ _
  simp only [InodeStore.insert, hf1, hpath]
  rw [if_neg (fun hh => hh rfl)]
  refine ⟨_, rfl, ?_⟩
  rw [InodeStore.get_eq]
  exact alFind_alInsert_self _ _ _

theorem insert_refresh_second_attr_wins_witness :
    inode42.attr.ino = inode42b.attr.ino ∧
    inode42.path = inode42b.path ∧
    store0.insert inode42 = .ok store42 ∧
    ∃ s2, store42.insert inode42b = .ok s2 ∧ s2.get 42 = some inode42b :=
  ⟨rfl, rfl, by decide,
   insert_refresh_second_attr_wins store0 store42 inode42 inode42b rfl rfl
     (by decide)⟩

/-- C3 counterexample: the claim says a lookup whose child record is
already cached returns it without issuing any backend stat.  In the
source the cache-consulting branch is commented out: with `/readme.txt`
(inode 42) cached in `store42`, `lookup 1 "readme.txt"` still issues the
backend `stat` — its backend-call trace is `[stat "/readme.txt"]`, not
`[]`. -/
theorem lookup_cached_child_still_stats :
    store42.child 1 "readme.txt" = some inode42 ∧
    lookup bEx store42 1 "readme.txt" =
      .ok (.entry TTL attr42, store42, [.stat ["/", "readme.txt"]]) ∧
    [BackendCall.stat ["/", "readme.txt"]] ≠ ([] : List BackendCall) := by
  refine ⟨by decide, by decide, by decide⟩

/-- C3 amended: the lookup-child operation always constructs the child
path from the cached parent path and always issues a backend `stat`
(the cached-record fast path is disabled in the source); on success it
inserts/refreshes the resulting record and replies with it, and on
backend failure it replies `NotFound` leaving the table unchanged. -/
theorem lookup_always_stats (b : Backend) (s : InodeStore) (parent : Nat)
    (name : String) (p : Inode) (hp : s.get parent = some p) :
    (∀ e, gfsStat b (p.path ++ [name]) = .error e →
       lookup b s parent name =
         .ok (.err ENOENT, s, [.stat (p.path ++ [name])])) ∧
    (∀ fa inode s', gfsStat b (p.path ++ [name]) = .ok fa →
       s.insertMetadata (p.path ++ [name]) fa = .ok (inode, s') →
       lookup b s parent name =
         .ok (.entry TTL inode.attr, s', [.stat (p.path ++ [name])])) := by
  constructor
  · intro e he
    simp only [lookup, hp, he]
  · intro fa inode s' hok hins
    simp only [lookup, hp, hok, hins]

theorem lookup_always_stats_witness :
    store42.get 1 = some rootInodeEx ∧
    gfsStat bEx (rootInodeEx.path ++ ["readme.txt"]) = .ok attr42 ∧
    store42.insertMetadata (rootInodeEx.path ++ ["readme.txt"]) attr42 =
      .ok (inode42, store42) ∧
    lookup bEx store42 1 "readme.txt" =
      .ok (.entry TTL inode42.attr, store42,
           [.stat (rootInodeEx.path ++ ["readme.txt"])]) :=
  ⟨by decide, by decide, by decide,
   (lookup_always_stats bEx store42 1 "readme.txt" rootInodeEx
       (by decide)).2 attr42 inode42 store42 (by decide) (by decide)⟩

/-- C4: for a cached `(parent, name)` target, `unlink` with a succeeding
backend unlink removes the target from both indexes — afterwards `get` of
its inode and `get_by_path` of its former path both return `none` — and
with a failing backend unlink the table is returned unchanged with a
failure reply.  (The hypothesis `hft` — the target is stored under its
own inode number — holds in every reachable store by `RootInv`.) -/
theorem unlink_removes_both_indexes (b : Backend) (s : InodeStore)
    (parent : Nat) (name : String) (t : Inode)
    (hchild : s.child parent name = some t)
    (hft : s.get t.attr.ino = some t) :
    (b.unlink t.path = .ok () →
       ∃ s', unlink b s parent name = .ok (.ok, s', [.unlink t.path]) ∧
         s'.get t.attr.ino = none ∧ s'.get_by_path t.path = none) ∧
    (∀ e, b.unlink t.path = .error e →
       unlink b s parent name = .ok (.err ENOENT, s, [.unlink t.path])) := by
  rw [InodeStore.get_eq] at hft
  constructor
  · intro hok
    simp only [unlink, hchild, hok, InodeStore.remove, hft]
    refine ⟨_, rfl, ?_, ?_⟩
    · rw [InodeStore.get_eq]
      exact alFind_alErase_self _ _
    · unfold InodeStore.get_by_path
      show (alFind (alErase s.ino_trie t.path) t.path).bind _ = none
      rw [alFind_alErase_self]
      rfl
  · intro e he
    simp only [unlink, hchild, he]

theorem unlink_removes_both_indexes_witness :
    store42.child 1 "readme.txt" = some inode42 ∧
    store42.get 42 = some inode42 ∧
    bEx.unlink inode42.path = .ok () ∧
    ∃ s', unlink bEx store42 1 "readme.txt" =
        .ok (.ok, s', [.unlink inode42.path]) ∧
      s'.get 42 = none ∧ s'.get_by_path inode42.path = none :=
  ⟨by decide, by decide, by decide,
   (unlink_removes_both_indexes bEx store42 1 "readme.txt" inode42
       (by decide) (by decide)).1 (by decide)⟩

/-- C5: immediately after `InodeStore::new` — built without any backend
argument, hence without any backend call — inode 1 resolves to the root
path `/` with a synthetic directory-kind record of size 0; and in every
adapter-reachable state thereafter inode 1 still resolves to `/` (the
entry is never removed). -/
theorem root_inode_reserved (perm uid gid : Nat) (now : Timespec) :
    (∃ s0 r0, InodeStore.new perm uid gid now = .ok s0 ∧
       s0.get 1 = some r0 ∧ r0.path = ["/"] ∧
       r0.attr.kind = .Directory ∧ r0.attr.size = 0) ∧
    (∀ s, Reachable s → ∃ r, s.get 1 = some r ∧ r.path = ["/"]) := by
  constructor
  · exact ⟨_, _, rfl, rfl, rfl, rfl, rfl⟩
  · intro s hs
    exact (rootInv_of_reachable s hs).1

theorem root_inode_reserved_witness :
    ∃ r, store0.get 1 = some r ∧ r.path = ["/"] :=
  (root_inode_reserved 0o550 0 0 ⟨5, 0⟩).2 store0
    (Reachable.init 0o550 0 0 ⟨5, 0⟩ store0 (by decide))

/-- C6: the claim says a `readdir` call that fills the buffer stops at
exactly the boundary, and the follow-up call yields the remaining entries
with no gaps.  The code is off by one: `reply.add` returns `true` when
the boundary entry does NOT fit, but the loop has already consumed that
entry from the stateful directory cursor, so the follow-up call starts
after it.  With entries `a, b, c` and room for one entry per call, the
first call emits `a` and leaves the cursor at `c`; the second call emits
`c`; entry `b` is never emitted. -/
theorem readdir_boundary_entry_skipped :
    readdir 1 0 dirEntries =
      ⟨.ok, [(10, 0, .RegularFile, "a")], [⟨12, DT_REG, "c"⟩]⟩ ∧
    readdir 1 1 [⟨12, DT_REG, "c"⟩] =
      ⟨.ok, [(12, 0, .RegularFile, "c")], []⟩ ∧
    (readdir 1 0 dirEntries).emitted ++
        (readdir 1 1 (readdir 1 0 dirEntries).cursor).emitted =
      [(10, 0, .RegularFile, "a"), (12, 0, .RegularFile, "c")] := by
  refine ⟨by decide, by decide, by decide⟩

/-- C7: the claim (and the source comment "Change the access times
if requested") says the timestamp sub-change is applied only when
timestamps are requested.  The code calls `utimens` unconditionally, with
both slots zeroed when no timestamp was requested: a `setattr` asking
only for a mode change still issues
`utimens("/readme.txt", [(0,0), (0,0)])` before `chmod` and the final
re-stat. -/
theorem setattr_utimens_called_unrequested :
    setattr bEx store42 42 (some 0o644) none none none none =
      .ok (.attr TTL attr42, store42,
           [.utimens ["/", "readme.txt"] ⟨0, 0⟩ ⟨0, 0⟩,
            .chmod ["/", "readme.txt"] 0o644,
            .stat ["/", "readme.txt"]]) := by
  decide

/-- C8: the claim says a zero-size `getxattr` probe replies with just the
value length, and `ERANGE` is returned exactly when the requested size
is nonzero and smaller.  The code tests `data.len() > size` before the
`size == 0` case, so a zero-size probe of the 5-byte value `"hello"`
replies `ERANGE` instead of the length 5; the same request with size 5
returns the data. -/
theorem getxattr_size_zero_erange :
    getxattr bEx store0 1 "user.test" 0 =
      .ok (.err ERANGE, store0r,
           [.getxattr ["/"] "user.test", .stat ["/"]]) ∧
    "hello".length = 5 ∧
    getxattr bEx store0 1 "user.test" 5 =
      .ok (.xattrData "hello", store0r,
           [.getxattr ["/"] "user.test", .stat ["/"]]) := by
  refine ⟨by decide, by decide, by decide⟩

/-- C9: `getattr` answers purely from the table — a cached inode gets its
cached attributes with the `TTL` validity window (one second), an unknown
inode gets `NotFound` — and its backend-call trace is empty on both
paths. -/
theorem getattr_cached_no_backend (b : Backend) (s : InodeStore)
    (ino : Nat) :
    (getattr b s ino).2 = [] ∧
    (∀ inode, s.get ino = some inode →
       (getattr b s ino).1 = .attr TTL inode.attr) ∧
    (s.get ino = none → (getattr b s ino).1 = .err ENOENT) ∧
    TTL = ⟨1, 0⟩ := by
  refine ⟨?_, ?_, ?_, rfl⟩
  · cases hg : s.get ino <;> simp [getattr, hg]
  · intro inode h
    simp [getattr, h]
  · intro h
    simp [getattr, h]

theorem getattr_cached_no_backend_witness :
    store42.get 42 = some inode42 ∧
    (getattr bEx store42 42).1 = .attr TTL inode42.attr ∧
    store42.get 7 = none ∧
    (getattr bEx store42 7).1 = .err ENOENT :=
  ⟨by decide,
   (getattr_cached_no_backend bEx store42 42).2.1 inode42 (by decide),
   by decide,
   (getattr_cached_no_backend bEx store42 7).2.2.1 (by decide)⟩

/-- C10: every successfully normalized backend stat yields an attribute
record with permission bits fixed at `0o755` and creation time fixed at
`(1, 0)`, the backend `st_mode` contributing only the file kind (and
the other fields copied through). -/
theorem stat_perm_crtime_fixed (b : Backend) (path : List String)
    (fa : FileAttr) (h : gfsStat b path = .ok fa) :
    fa.perm = 0o755 ∧ fa.crtime = ⟨1, 0⟩ ∧
    ∃ st, b.stat path = .ok st ∧
      filetype_from_mode st.st_mode = some fa.kind ∧ fa.ino = st.st_ino := by
  unfold gfsStat at h
  split at h
  next => exact absurd h (by simp)
  next st hst =>
    split at h
    next => exact absurd h (by simp)
    next dt hdt =>
      simp only [Except.ok.injEq] at h
      subst h
      exact ⟨rfl, rfl, st, hst, by rw [hdt], rfl⟩

theorem stat_perm_crtime_fixed_witness :
    attr42.perm = 0o755 ∧ attr42.crtime = ⟨1, 0⟩ ∧
    ∃ st, bEx.stat ["/", "readme.txt"] = .ok st ∧
      filetype_from_mode st.st_mode = some attr42.kind ∧
      attr42.ino = st.st_ino :=
  stat_perm_crtime_fixed bEx ["/", "readme.txt"] attr42 (by decide)
